import Mathlib

/-!
Verification of the trial-management core of the `add_or_remove_users`
repository (files `storage.py`, `bot.py`, `api.py`) against its
natural-language specification.

The Python code is shallowly embedded:

* JSON records become Lean structures; a missing dictionary key is `Option.none`.
* ISO-8601 timestamps and floating-point hour counts are modelled as exact
  rationals (seconds since the epoch); the string parsers
  `datetime.fromisoformat` / `float` appear as explicit `String → Option ℚ`
  parameters wherever the code parses stored strings.
* `hmac.new(secret, message, sha256).hexdigest()` is an abstract keyed
  function `mac : String → String`; the canonical message construction of
  `storage.py` is embedded literally.  Tamper-detection theorems assume
  `mac` is injective (collision resistance), which is the security
  assumption HMAC-SHA256 provides.
* Each Python critical section (`with _lock:`) is one atomic state
  transformer on a `Store` value; concurrency is serialised interleaving of
  those transformers.
-/

/-! ### Decimal rendering is injective

`storage.py` embeds the integer user id into the HMAC message via an
f-string, i.e. via decimal rendering.  To show that signing binds the user
id we prove that Lean's rendering (`toString : Int → String`, identical to
Python's `str`) is injective.
-/

/-- The digit list produced by `Nat.toDigitsCore` at base 10, defined by
well-founded recursion on the number instead of fuel. -/
def decimalDigits (n : Nat) : List Char :=
  if h : n < 10 then [Nat.digitChar n]
  else
    have : n / 10 < n := Nat.div_lt_self (by omega) (by omega)
    decimalDigits (n / 10) ++ [Nat.digitChar (n % 10)]

theorem decimalDigits_lt (n : Nat) (h : n < 10) :
    decimalDigits n = [Nat.digitChar n] := by
  rw [decimalDigits]; simp [h]

theorem decimalDigits_ge (n : Nat) (h : ¬ n < 10) :
    decimalDigits n = decimalDigits (n / 10) ++ [Nat.digitChar (n % 10)] := by
  rw [decimalDigits]; simp [h]

theorem toDigitsCore_eq_decimalDigits :
    ∀ (f n : Nat) (acc : List Char), n < 10 ^ (f + 1) →
      Nat.toDigitsCore 10 (f + 1) n acc = decimalDigits n ++ acc := by
  intro f
  induction f with
  | zero =>
    intro n acc hn
    have hn' : n < 10 := by simpa using hn
    have hdiv : n / 10 = 0 := Nat.div_eq_of_lt hn'
    simp [Nat.toDigitsCore, hdiv, decimalDigits_lt n hn', Nat.mod_eq_of_lt hn']
  | succ f ih =>
    intro n acc hn
    by_cases hsmall : n < 10
    · have hdiv : n / 10 = 0 := Nat.div_eq_of_lt hsmall
      simp [Nat.toDigitsCore, hdiv, decimalDigits_lt n hsmall, Nat.mod_eq_of_lt hsmall]
    · have hdiv : n / 10 ≠ 0 := by omega
      have hlt : n / 10 < 10 ^ (f + 1) := by
        have := (Nat.div_lt_iff_lt_mul (show 0 < 10 by omega)).2
          (show n < 10 ^ (f + 1) * 10 by
            calc n < 10 ^ (f + 1 + 1) := hn
            _ = 10 ^ (f + 1) * 10 := by ring)
        exact this
      have step : Nat.toDigitsCore 10 (f + 1 + 1) n acc
          = Nat.toDigitsCore 10 (f + 1) (n / 10) (Nat.digitChar (n % 10) :: acc) := by
        simp [Nat.toDigitsCore, hdiv]
      rw [step, ih (n / 10) (Nat.digitChar (n % 10) :: acc) hlt,
        decimalDigits_ge n hsmall]
      simp

theorem toDigits_eq_decimalDigits (n : Nat) :
    Nat.toDigits 10 n = decimalDigits n := by
  have hn : n < 10 ^ (n + 1) := by
    calc n < 10 ^ n := Nat.lt_pow_self (by norm_num) n
    _ ≤ 10 ^ (n + 1) := Nat.pow_le_pow_right (by norm_num) (Nat.le_succ n)
  simpa using toDigitsCore_eq_decimalDigits n n [] hn

theorem digitChar_inj_lt (a b : Nat) (ha : a < 10) (hb : b < 10)
    (h : Nat.digitChar a = Nat.digitChar b) : a = b := by
  have : ∀ x y : Fin 10, Nat.digitChar x.val = Nat.digitChar y.val → x = y := by decide
  have := this ⟨a, ha⟩ ⟨b, hb⟩ h
  simpa using congrArg Fin.val this

theorem decimalDigits_ne_nil (n : Nat) : decimalDigits n ≠ [] := by
  by_cases h : n < 10
  · rw [decimalDigits_lt n h]; simp
  · rw [decimalDigits_ge n h]; simp

theorem decimalDigits_inj : ∀ m n : Nat, decimalDigits m = decimalDigits n → m = n := by
  intro m
  induction m using Nat.strong_induction_on with
  | _ m ih =>
    intro n h
    by_cases hm : m < 10 <;> by_cases hn : n < 10
    · rw [decimalDigits_lt m hm, decimalDigits_lt n hn] at h
      exact digitChar_inj_lt m n hm hn (List.singleton_inj.mp h)
    · rw [decimalDigits_lt m hm, decimalDigits_ge n hn] at h
      exfalso
      apply decimalDigits_ne_nil (n / 10)
      have hlen := congrArg List.length h
      rw [List.length_singleton, List.length_append, List.length_singleton] at hlen
      exact List.eq_nil_of_length_eq_zero (by omega)
    · rw [decimalDigits_ge m hm, decimalDigits_lt n hn] at h
      exfalso
      apply decimalDigits_ne_nil (m / 10)
      have hlen := congrArg List.length h
      rw [List.length_singleton, List.length_append, List.length_singleton] at hlen
      exact List.eq_nil_of_length_eq_zero (by omega)
    · rw [decimalDigits_ge m hm, decimalDigits_ge n hn] at h
      have hparts := List.append_inj' h rfl
      have hd : m / 10 = n / 10 := by
        have hrec : m / 10 < m := Nat.div_lt_self (by omega) (by omega)
        exact ih (m / 10) hrec (n / 10) hparts.1
      have hmod : m % 10 = n % 10 := by
        have := List.singleton_inj.mp hparts.2
        exact digitChar_inj_lt _ _ (Nat.mod_lt _ (by omega)) (Nat.mod_lt _ (by omega)) this
      omega

theorem natRepr_data (n : Nat) : (Nat.repr n).data = decimalDigits n := by
  show (Nat.toDigits 10 n).asString.data = _
  rw [toDigits_eq_decimalDigits]
  rfl

theorem natRepr_inj : Function.Injective Nat.repr := by
  intro m n h
  apply decimalDigits_inj
  rw [← natRepr_data, ← natRepr_data, h]

theorem decimalDigits_no_dash (n : Nat) : '-' ∉ decimalDigits n := by
  induction n using Nat.strong_induction_on with
  | _ n ih =>
    by_cases h : n < 10
    · rw [decimalDigits_lt n h]
      have hd : Nat.digitChar n ≠ '-' := by
        have : ∀ x : Fin 10, Nat.digitChar x.val ≠ '-' := by decide
        simpa using this ⟨n, h⟩
      intro hmem
      rw [List.mem_singleton] at hmem
      exact hd hmem.symm
    · rw [decimalDigits_ge n h]
      have h1 : '-' ∉ decimalDigits (n / 10) :=
        ih (n / 10) (Nat.div_lt_self (by omega) (by omega))
      have h2 : Nat.digitChar (n % 10) ≠ '-' := by
        have : ∀ x : Fin 10, Nat.digitChar x.val ≠ '-' := by decide
        simpa using this ⟨n % 10, Nat.mod_lt _ (by omega)⟩
      intro hmem
      rw [List.mem_append, List.mem_singleton] at hmem
      rcases hmem with h' | h'
      · exact h1 h'
      · exact h2 h'.symm

theorem intToString_inj : Function.Injective (toString : Int → String) := by
  intro i j h
  have h' : Int.repr i = Int.repr j := h
  match i, j with
  | Int.ofNat m, Int.ofNat n =>
    have : Nat.repr m = Nat.repr n := h'
    exact congrArg Int.ofNat (natRepr_inj this)
  | Int.ofNat m, Int.negSucc n =>
    exfalso
    have hdata : (Nat.repr m).data = ("-" ++ Nat.repr (n + 1)).data := congrArg String.data h'
    simp only [String.data_append, natRepr_data] at hdata
    apply decimalDigits_no_dash m
    rw [hdata]
    simp [show ("-" : String).data = ['-'] from rfl]
  | Int.negSucc m, Int.ofNat n =>
    exfalso
    have hdata : ("-" ++ Nat.repr (m + 1)).data = (Nat.repr n).data := congrArg String.data h'
    simp only [String.data_append, natRepr_data] at hdata
    apply decimalDigits_no_dash n
    rw [← hdata]
    simp [show ("-" : String).data = ['-'] from rfl]
  | Int.negSucc m, Int.negSucc n =>
    have hdata : ("-" ++ Nat.repr (m + 1)).data = ("-" ++ Nat.repr (n + 1)).data :=
      congrArg String.data h'
    rw [String.data_append, String.data_append] at hdata
    have htail := List.append_cancel_left hdata
    have hmn : Nat.repr (m + 1) = Nat.repr (n + 1) := String.ext htail
    have heq : m = n := by have := natRepr_inj hmn; omega
    rw [heq]

/-! ### Signed record store (`storage.py` lines 39-121)

Records are JSON dictionaries; a missing key is `none`.  `total_hours` is
stored as a Python float and rendered with `str` when the HMAC message is
built; the field here holds that rendered string.  `mac` stands for
`hmac.new(BOT_TOKEN, message, sha256).hexdigest()`.
-/

/-- A record of `active_trials.json` (also used for `used_trials`-style dicts
is not needed; those are modelled separately at value level). -/
structure TrialDict where
  join_time : Option String
  total_hours : Option String
  trial_end_at : Option String
  signature : Option String
deriving DecidableEq

/-- A record of `invites.json`. -/
structure InviteDict where
  invite_link : Option String
  invite_created_at : Option String
  invite_expires_at : Option String
  signature : Option String
  creating : Bool
deriving DecidableEq

/-- Canonical message of `_sign_trial_data`:
`f"{user_id}|{join_time}|{total_hours}|{trial_end_at}"` with `dict.get(_, "")`
defaults. -/
def trialMessage (user_id : Int) (data : TrialDict) : String :=
  toString user_id ++ "|" ++ data.join_time.getD "" ++ "|"
    ++ data.total_hours.getD "" ++ "|" ++ data.trial_end_at.getD ""

/-- Embedding of `_sign_trial_data` (storage.py line 39). -/
def sign_trial_data (mac : String → String) (data : TrialDict) (user_id : Int) : String :=
  mac (trialMessage user_id data)

/-- Embedding of `_verify_trial_signature` (storage.py line 61): absent
signature fails; otherwise constant-time equality with the recomputed MAC. -/
def verify_trial_signature (mac : String → String) (data : TrialDict) (user_id : Int) : Bool :=
  match data.signature with
  | none => false
  | some stored => decide (stored = sign_trial_data mac data user_id)

/-- Canonical message of `_sign_invite_data`:
`f"{user_id}|{invite_link}|{created_at}|{expires_at}"`. -/
def inviteMessage (user_id : Int) (data : InviteDict) : String :=
  toString user_id ++ "|" ++ data.invite_link.getD "" ++ "|"
    ++ data.invite_created_at.getD "" ++ "|" ++ data.invite_expires_at.getD ""

/-- Embedding of `_sign_invite_data` (storage.py line 82). -/
def sign_invite_data (mac : String → String) (data : InviteDict) (user_id : Int) : String :=
  mac (inviteMessage user_id data)

/-- Embedding of `_verify_invite_signature` (storage.py line 103). -/
def verify_invite_signature (mac : String → String) (data : InviteDict) (user_id : Int) : Bool :=
  match data.signature with
  | none => false
  | some stored => decide (stored = sign_invite_data mac data user_id)

/-- The signing step of `set_active_trial` (storage.py line 324):
`info["signature"] = _sign_trial_data(info, tg_id)`. -/
def withTrialSignature (mac : String → String) (user_id : Int) (info : TrialDict) : TrialDict :=
  { info with signature := some (sign_trial_data mac info user_id) }

/-- The signing step of `set_invite_info` / `finalize_invite_creation`
(storage.py lines 363 and 444). -/
def withInviteSignature (mac : String → String) (user_id : Int) (info : InviteDict) : InviteDict :=
  { info with signature := some (sign_invite_data mac info user_id) }

/-! Injectivity of the canonical message in each signed component, the
other components held fixed. -/

theorem trialMessage_inj_uid (uid1 uid2 : Int) (d1 d2 : TrialDict)
    (hjt : d1.join_time.getD "" = d2.join_time.getD "")
    (hth : d1.total_hours.getD "" = d2.total_hours.getD "")
    (hte : d1.trial_end_at.getD "" = d2.trial_end_at.getD "")
    (h : trialMessage uid1 d1 = trialMessage uid2 d2) : uid1 = uid2 := by
  apply intToString_inj
  apply String.ext
  have hd := congrArg String.data h
  simp only [trialMessage, String.data_append, List.append_assoc] at hd
  rw [← congrArg String.data hjt, ← congrArg String.data hth,
    ← congrArg String.data hte] at hd
  exact List.append_cancel_right hd

theorem trialMessage_inj_join (uid : Int) (d1 d2 : TrialDict)
    (hth : d1.total_hours.getD "" = d2.total_hours.getD "")
    (hte : d1.trial_end_at.getD "" = d2.trial_end_at.getD "")
    (h : trialMessage uid d1 = trialMessage uid d2) :
    d1.join_time.getD "" = d2.join_time.getD "" := by
  apply String.ext
  have hd := congrArg String.data h
  simp only [trialMessage, String.data_append, List.append_assoc] at hd
  rw [← congrArg String.data hth, ← congrArg String.data hte] at hd
  exact List.append_cancel_right
    (List.append_cancel_left (List.append_cancel_left hd))

theorem trialMessage_inj_hours (uid : Int) (d1 d2 : TrialDict)
    (hjt : d1.join_time.getD "" = d2.join_time.getD "")
    (hte : d1.trial_end_at.getD "" = d2.trial_end_at.getD "")
    (h : trialMessage uid d1 = trialMessage uid d2) :
    d1.total_hours.getD "" = d2.total_hours.getD "" := by
  apply String.ext
  have hd := congrArg String.data h
  simp only [trialMessage, String.data_append, List.append_assoc] at hd
  rw [← congrArg String.data hjt, ← congrArg String.data hte] at hd
  have h1 := List.append_cancel_left hd
  have h2 := List.append_cancel_left h1
  have h3 := List.append_cancel_left h2
  have h4 := List.append_cancel_left h3
  exact List.append_cancel_right h4

theorem trialMessage_inj_end (uid : Int) (d1 d2 : TrialDict)
    (hjt : d1.join_time.getD "" = d2.join_time.getD "")
    (hth : d1.total_hours.getD "" = d2.total_hours.getD "")
    (h : trialMessage uid d1 = trialMessage uid d2) :
    d1.trial_end_at.getD "" = d2.trial_end_at.getD "" := by
  apply String.ext
  have hd := congrArg String.data h
  simp only [trialMessage, String.data_append, List.append_assoc] at hd
  rw [← congrArg String.data hjt, ← congrArg String.data hth] at hd
  have h1 := List.append_cancel_left hd
  have h2 := List.append_cancel_left h1
  have h3 := List.append_cancel_left h2
  have h4 := List.append_cancel_left h3
  have h5 := List.append_cancel_left h4
  exact List.append_cancel_left h5

theorem inviteMessage_inj_uid (uid1 uid2 : Int) (d1 d2 : InviteDict)
    (hlk : d1.invite_link.getD "" = d2.invite_link.getD "")
    (hca : d1.invite_created_at.getD "" = d2.invite_created_at.getD "")
    (hea : d1.invite_expires_at.getD "" = d2.invite_expires_at.getD "")
    (h : inviteMessage uid1 d1 = inviteMessage uid2 d2) : uid1 = uid2 := by
  apply intToString_inj
  apply String.ext
  have hd := congrArg String.data h
  simp only [inviteMessage, String.data_append, List.append_assoc] at hd
  rw [← congrArg String.data hlk, ← congrArg String.data hca,
    ← congrArg String.data hea] at hd
  exact List.append_cancel_right hd

theorem inviteMessage_inj_link (uid : Int) (d1 d2 : InviteDict)
    (hca : d1.invite_created_at.getD "" = d2.invite_created_at.getD "")
    (hea : d1.invite_expires_at.getD "" = d2.invite_expires_at.getD "")
    (h : inviteMessage uid d1 = inviteMessage uid d2) :
    d1.invite_link.getD "" = d2.invite_link.getD "" := by
  apply String.ext
  have hd := congrArg String.data h
  simp only [inviteMessage, String.data_append, List.append_assoc] at hd
  rw [← congrArg String.data hca, ← congrArg String.data hea] at hd
  exact List.append_cancel_right
    (List.append_cancel_left (List.append_cancel_left hd))

theorem inviteMessage_inj_created (uid : Int) (d1 d2 : InviteDict)
    (hlk : d1.invite_link.getD "" = d2.invite_link.getD "")
    (hea : d1.invite_expires_at.getD "" = d2.invite_expires_at.getD "")
    (h : inviteMessage uid d1 = inviteMessage uid d2) :
    d1.invite_created_at.getD "" = d2.invite_created_at.getD "" := by
  apply String.ext
  have hd := congrArg String.data h
  simp only [inviteMessage, String.data_append, List.append_assoc] at hd
  rw [← congrArg String.data hlk, ← congrArg String.data hea] at hd
  have h1 := List.append_cancel_left hd
  have h2 := List.append_cancel_left h1
  have h3 := List.append_cancel_left h2
  have h4 := List.append_cancel_left h3
  exact List.append_cancel_right h4

theorem inviteMessage_inj_expires (uid : Int) (d1 d2 : InviteDict)
    (hlk : d1.invite_link.getD "" = d2.invite_link.getD "")
    (hca : d1.invite_created_at.getD "" = d2.invite_created_at.getD "")
    (h : inviteMessage uid d1 = inviteMessage uid d2) :
    d1.invite_expires_at.getD "" = d2.invite_expires_at.getD "" := by
  apply String.ext
  have hd := congrArg String.data h
  simp only [inviteMessage, String.data_append, List.append_assoc] at hd
  rw [← congrArg String.data hlk, ← congrArg String.data hca] at hd
  have h1 := List.append_cancel_left hd
  have h2 := List.append_cancel_left h1
  have h3 := List.append_cancel_left h2
  have h4 := List.append_cancel_left h3
  have h5 := List.append_cancel_left h4
  exact List.append_cancel_left h5

theorem verify_trial_eq_true (mac : String → String) (d : TrialDict) (uid : Int) (s : String)
    (hs : d.signature = some s) (heq : s = sign_trial_data mac d uid) :
    verify_trial_signature mac d uid = true := by
  unfold verify_trial_signature
  rw [hs]
  simpa using heq

theorem verify_trial_eq_false (mac : String → String) (d : TrialDict) (uid : Int) (s : String)
    (hs : d.signature = some s) (hne : s ≠ sign_trial_data mac d uid) :
    verify_trial_signature mac d uid = false := by
  unfold verify_trial_signature
  rw [hs]
  simpa using hne

theorem verify_invite_eq_true (mac : String → String) (d : InviteDict) (uid : Int) (s : String)
    (hs : d.signature = some s) (heq : s = sign_invite_data mac d uid) :
    verify_invite_signature mac d uid = true := by
  unfold verify_invite_signature
  rw [hs]
  simpa using heq

theorem verify_invite_eq_false (mac : String → String) (d : InviteDict) (uid : Int) (s : String)
    (hs : d.signature = some s) (hne : s ≠ sign_invite_data mac d uid) :
    verify_invite_signature mac d uid = false := by
  unfold verify_invite_signature
  rw [hs]
  simpa using hne

/-- C2: for every trial or invite record and every identity, signing the
record (as `set_active_trial` / `set_invite_info` do) and then verifying it
unmodified succeeds; and for a record whose stored signature was computed
over the original values, changing any signed field — the user id,
`join_time`, `total_hours`, `trial_end_at` for trials; `invite_link`,
`invite_created_at`, `invite_expires_at` for invites — while keeping the
stored signature makes verification fail.  The keyed MAC is assumed
collision-free (injective), the security property HMAC-SHA256 supplies. -/
theorem C2_signature_round_trip
    (mac : String → String) (hmac_inj : Function.Injective mac)
    (uid uid' : Int) (d : TrialDict) (v : InviteDict)
    (jt th te lk ca ea : String) :
    verify_trial_signature mac (withTrialSignature mac uid d) uid = true
    ∧ verify_invite_signature mac (withInviteSignature mac uid v) uid = true
    ∧ (uid' ≠ uid →
        verify_trial_signature mac (withTrialSignature mac uid d) uid' = false)
    ∧ (jt ≠ d.join_time.getD "" →
        verify_trial_signature mac
          { withTrialSignature mac uid d with join_time := some jt } uid = false)
    ∧ (th ≠ d.total_hours.getD "" →
        verify_trial_signature mac
          { withTrialSignature mac uid d with total_hours := some th } uid = false)
    ∧ (te ≠ d.trial_end_at.getD "" →
        verify_trial_signature mac
          { withTrialSignature mac uid d with trial_end_at := some te } uid = false)
    ∧ (uid' ≠ uid →
        verify_invite_signature mac (withInviteSignature mac uid v) uid' = false)
    ∧ (lk ≠ v.invite_link.getD "" →
        verify_invite_signature mac
          { withInviteSignature mac uid v with invite_link := some lk } uid = false)
    ∧ (ca ≠ v.invite_created_at.getD "" →
        verify_invite_signature mac
          { withInviteSignature mac uid v with invite_created_at := some ca } uid = false)
    ∧ (ea ≠ v.invite_expires_at.getD "" →
        verify_invite_signature mac
          { withInviteSignature mac uid v with invite_expires_at := some ea } uid = false) := by
  refine ⟨?_, ?_, ?_, ?_, ?_, ?_, ?_, ?_, ?_, ?_⟩
  · exact verify_trial_eq_true mac _ uid (sign_trial_data mac d uid) rfl rfl
  · exact verify_invite_eq_true mac _ uid (sign_invite_data mac v uid) rfl rfl
  · intro hne
    apply verify_trial_eq_false mac _ uid' (sign_trial_data mac d uid) rfl
    intro heq
    exact hne (trialMessage_inj_uid uid' uid _ _ rfl rfl rfl (hmac_inj heq).symm)
  · intro hne
    apply verify_trial_eq_false mac _ uid (sign_trial_data mac d uid) rfl
    intro heq
    have hmsg := trialMessage_inj_join uid d
      { withTrialSignature mac uid d with join_time := some jt } rfl rfl (hmac_inj heq)
    exact hne hmsg.symm
  · intro hne
    apply verify_trial_eq_false mac _ uid (sign_trial_data mac d uid) rfl
    intro heq
    have hmsg := trialMessage_inj_hours uid d
      { withTrialSignature mac uid d with total_hours := some th } rfl rfl (hmac_inj heq)
    exact hne hmsg.symm
  · intro hne
    apply verify_trial_eq_false mac _ uid (sign_trial_data mac d uid) rfl
    intro heq
    have hmsg := trialMessage_inj_end uid d
      { withTrialSignature mac uid d with trial_end_at := some te } rfl rfl (hmac_inj heq)
    exact hne hmsg.symm
  · intro hne
    apply verify_invite_eq_false mac _ uid' (sign_invite_data mac v uid) rfl
    intro heq
    exact hne (inviteMessage_inj_uid uid' uid _ _ rfl rfl rfl (hmac_inj heq).symm)
  · intro hne
    apply verify_invite_eq_false mac _ uid (sign_invite_data mac v uid) rfl
    intro heq
    have hmsg := inviteMessage_inj_link uid v
      { withInviteSignature mac uid v with invite_link := some lk } rfl rfl (hmac_inj heq)
    exact hne hmsg.symm
  · intro hne
    apply verify_invite_eq_false mac _ uid (sign_invite_data mac v uid) rfl
    intro heq
    have hmsg := inviteMessage_inj_created uid v
      { withInviteSignature mac uid v with invite_created_at := some ca } rfl rfl (hmac_inj heq)
    exact hne hmsg.symm
  · intro hne
    apply verify_invite_eq_false mac _ uid (sign_invite_data mac v uid) rfl
    intro heq
    have hmsg := inviteMessage_inj_expires uid v
      { withInviteSignature mac uid v with invite_expires_at := some ea } rfl rfl (hmac_inj heq)
    exact hne hmsg.symm

/-- Witness for C2 at a concrete injective MAC (the identity), user ids 1
and 2, and concrete records. -/
theorem C2_signature_round_trip_witness :
    verify_trial_signature id
      (withTrialSignature id 1 ⟨some "2024-01-01", some "72.0", some "2024-01-04", none⟩) 1 = true
    ∧ verify_trial_signature id
      { withTrialSignature id 1 ⟨some "2024-01-01", some "72.0", some "2024-01-04", none⟩ with
          total_hours := some "120.0" } 1 = false
    ∧ verify_invite_signature id
      { withInviteSignature id 1 ⟨some "https://a", some "c", some "x", none, false⟩ with
          invite_link := some "https://b" } 1 = false := by
  have h := C2_signature_round_trip id (fun a b h => h) 1 2
    ⟨some "2024-01-01", some "72.0", some "2024-01-04", none⟩
    ⟨some "https://a", some "c", some "x", none, false⟩
    "j" "120.0" "e" "https://b" "cc" "xx"
  exact ⟨h.1, h.2.2.2.2.1 (by decide), h.2.2.2.2.2.2.2.1 (by decide)⟩

/-! ### Invite reads that feed trust decisions (`storage.py` lines 371-430)

`parseIso` models `_parse_iso_to_utc` as a map from the stored string to a
rational epoch timestamp, `none` standing for a parse exception.  Times are
rationals (seconds). -/

/-- Embedding of `get_valid_invite_link` (storage.py line 371): missing
record or missing expiry gives `None`; an invalid signature gives `None`;
a parse failure gives `None`; otherwise the link is returned when it is a
non-empty string and `now` is before the expiry. -/
def get_valid_invite_link (mac : String → String) (parseIso : String → Option ℚ)
    (invites : Int → Option InviteDict) (tg_id : Int) (now : ℚ) : Option String :=
  match invites tg_id with
  | none => none
  | some info =>
    match info.invite_expires_at with
    | none => none
    | some expStr =>
      if verify_invite_signature mac info tg_id = true then
        match parseIso expStr with
        | none => none
        | some expires_at =>
          match info.invite_link with
          | none => none
          | some link => if now < expires_at ∧ link ≠ "" then some link else none
      else none

/-- Result of `atomic_create_or_get_invite`. -/
inductive InviteAction where
  | existing
  | created
deriving DecidableEq

structure InviteResult where
  action : InviteAction
  link : Option String
deriving DecidableEq

/-- Embedding of `atomic_create_or_get_invite` (storage.py line 401).  The
existing-invite branch checks only presence, expiry parse, expiry time and
link truthiness — it performs no signature verification.  When no valid
invite is found, a `creating` placeholder over `link_data` is written (the
auxiliary `created_at` bookkeeping key is not modelled). -/
def atomic_create_or_get_invite (parseIso : String → Option ℚ) (now : ℚ)
    (tg_id : Int) (link_data : InviteDict) (invites : Int → Option InviteDict) :
    InviteResult × (Int → Option InviteDict) :=
  let existingLink : Option String :=
    match invites tg_id with
    | none => none
    | some info =>
      match info.invite_expires_at with
      | none => none
      | some expStr =>
        match parseIso expStr with
        | none => none
        | some expires_at =>
          match info.invite_link with
          | none => none
          | some link => if now < expires_at ∧ link ≠ "" then some link else none
  match existingLink with
  | some link => ({ action := InviteAction.existing, link := some link }, invites)
  | none =>
    ({ action := InviteAction.created, link := none },
     fun i => if i = tg_id then some { link_data with creating := true } else invites i)

/-! ### Trial data validation (`bot.py` lines 264-309) -/

/-- Fixed 3-day trial duration in hours (bot.py line 163, default 72.0). -/
def TRIAL_HOURS_3_DAY : ℚ := 72

/-- Fixed 5-day trial duration in hours (bot.py line 164, default 120.0). -/
def TRIAL_HOURS_5_DAY : ℚ := 120

/-- Embedding of `validate_trial_data` (bot.py line 264): required fields,
HMAC signature, `total_hours` restricted to the two fixed durations,
`join_time` parseable, not in the future, and at most 30 days old.
`parseFloat` models Python `float` applied to the stored value, `parseIso`
models `_parse_iso_to_utc`; `none` models the raised exception. -/
def validate_trial_data (mac : String → String) (parseIso parseFloat : String → Option ℚ)
    (now : ℚ) (trial_data : TrialDict) (user_id : Int) : Bool :=
  match trial_data.join_time, trial_data.total_hours with
  | some jtStr, some thStr =>
    if verify_trial_signature mac trial_data user_id = true then
      match parseFloat thStr with
      | none => false
      | some total_hours =>
        if total_hours ≠ TRIAL_HOURS_3_DAY ∧ total_hours ≠ TRIAL_HOURS_5_DAY then false
        else
          match parseIso jtStr with
          | none => false
          | some join_time =>
            if now < join_time then false
            else if 30 < (now - join_time) / 86400 then false
            else true
    else false
  | _, _ => false

/-! ### Value-level trial store and its operations

The parsed content of `used_trials.json` and `active_trials.json`,
timestamps as rationals.  Each constructor of `UsedInfo` records the exact
dictionary each Python call site writes. -/

/-- A parsed record of `active_trials.json` as the bot writes it. -/
structure ActiveTrialV where
  join_time : ℚ
  total_hours : ℚ
  trial_end_at : Option ℚ
deriving DecidableEq

/-- A record of `used_trials.json`: the reservation placeholder of
`atomic_check_and_reserve_trial`, the end marker of `trial_end` /
`periodic_trial_cleanup` (with its `ended_by` tag), or the early-leave
marker of the voluntary-leave branch. -/
inductive UsedInfo where
  | reserved (reserved_at : ℚ)
  | ended (trial_ended_at : ℚ) (ended_by : String)
  | leftEarly (left_early_at : ℚ) (join_time : Option ℚ) (total_hours : Option ℚ)
deriving DecidableEq

/-- The two JSON files relevant to the trial lifecycle, keyed by stringified
identity (modelled as the integer key itself). -/
structure Store where
  used : Int → Option UsedInfo
  active : Int → Option ActiveTrialV

/-- Store with no records; both JSON files absent or empty. -/
def emptyStore : Store := ⟨fun _ => none, fun _ => none⟩

/-- Embedding of `mark_trial_used` (storage.py line 236). -/
def mark_trial_used (tg_id : Int) (info : UsedInfo) (s : Store) : Store :=
  { s with used := fun i => if i = tg_id then some info else s.used i }

/-- Embedding of `clear_active_trial` (storage.py line 332). -/
def clear_active_trial (tg_id : Int) (s : Store) : Store :=
  { s with active := fun i => if i = tg_id then none else s.active i }

/-- Embedding of `set_active_trial` (storage.py line 316), value level. -/
def set_active_trial (tg_id : Int) (info : ActiveTrialV) (s : Store) : Store :=
  { s with active := fun i => if i = tg_id then some info else s.active i }

/-- Embedding of `atomic_check_and_reserve_trial` (storage.py line 265):
one critical section checking both stores and, when both are empty for the
identity, writing the reservation marker into the used-trials slot. -/
def atomic_check_and_reserve_trial (now : ℚ) (tg_id : Int) (s : Store) : Bool × Store :=
  if (s.used tg_id).isSome then (false, s)
  else if (s.active tg_id).isSome then (false, s)
  else (true, mark_trial_used tg_id (UsedInfo.reserved now) s)

/-! ### Trial activation (`bot.py` join branch, lines 1999-2114) -/

/-- Weekday of an epoch timestamp, Python `datetime.weekday` convention
(0 = Monday … 6 = Sunday); 1970-01-01 was a Thursday (= 3). -/
def weekdayOf (t : ℚ) : Int := (Int.floor (t / 86400) + 3) % 7

/-- Embedding of `_is_weekend` (bot.py line 255): weekend check after
shifting by the configured timezone offset (hours). -/
def is_weekend (tzOffsetHours : ℚ) (dt : ℚ) : Bool :=
  decide (5 ≤ weekdayOf (dt + tzOffsetHours * 3600))

/-- Duration choice of the join branch (bot.py lines 2080-2086). -/
def chooseTrialHours (tzOffsetHours now : ℚ) : ℚ :=
  if is_weekend tzOffsetHours now then TRIAL_HOURS_5_DAY else TRIAL_HOURS_3_DAY

/-- The active-trial record the join branch writes (bot.py lines 2104-2114):
`join_time = now`, the calendar-chosen duration, and
`trial_end_at = now + timedelta(hours=total_hours)`. -/
def grantTrialRecord (tzOffsetHours now : ℚ) : ActiveTrialV :=
  { join_time := now
    total_hours := chooseTrialHours tzOffsetHours now
    trial_end_at := some (now + chooseTrialHours tzOffsetHours now * 3600) }

/-- Cooldown before a used identity may join again (bot.py line 166). -/
def TRIAL_COOLDOWN_DAYS : ℚ := 30

/-- The end timestamp the join branch reads from a used-trials record:
`user_trial_info.get("trial_ended_at") or user_trial_info.get("left_early_at")`
(bot.py line 2022).  The reservation placeholder carries neither key. -/
def UsedInfo.endTime : UsedInfo → Option ℚ
  | UsedInfo.reserved _ => none
  | UsedInfo.ended t _ => some t
  | UsedInfo.leftEarly t _ _ => some t

/-- Whether the used-trials record blocks a join (bot.py lines 1999-2078):
no record does not block; a record without an end timestamp blocks ("block
to be safe"); a record whose end timestamp is younger than the cooldown
blocks — but once `days_since_end` reaches `TRIAL_COOLDOWN_DAYS` the code
falls through with no return, so the record no longer blocks. -/
def cooldownBlocks (now : ℚ) : Option UsedInfo → Bool
  | none => false
  | some info =>
    match UsedInfo.endTime info with
    | none => true
    | some ended_at => decide ((now - ended_at) / 86400 < TRIAL_COOLDOWN_DAYS)

/-- Embedding of the join branch of `trial_chat_member_update`
(bot.py lines 1999-2114) restricted to its effect on the two stores.
A used-trials record blocks the join only while `cooldownBlocks` holds;
when the cooldown has elapsed (bot.py lines 2022-2028) execution falls
through WITHOUT returning and WITHOUT clearing the used record — nothing
in the codebase ever deletes a used-trials entry — and a fresh active
trial is written next to it.  An existing valid unexpired trial is left
untouched; otherwise the freshly granted record is written.  `validT`
abstracts `validate_trial_data` (settled separately at string level). -/
def trial_join_op (validT : ActiveTrialV → ℚ → Bool) (tzOffsetHours now : ℚ)
    (tg_id : Int) (s : Store) : Store :=
  if cooldownBlocks now (s.used tg_id) then s
  else
    match s.active tg_id with
    | some existing =>
      if validT existing now then
        match existing.trial_end_at with
        | some end_at =>
          if now < end_at then s
          else set_active_trial tg_id (grantTrialRecord tzOffsetHours now) s
        | none => set_active_trial tg_id (grantTrialRecord tzOffsetHours now) s
      else set_active_trial tg_id (grantTrialRecord tzOffsetHours now) s
    | none => set_active_trial tg_id (grantTrialRecord tzOffsetHours now) s

/-! ### The three termination triggers -/

/-- Embedding of the `trial_end` job (bot.py lines 2409-2443): no active
trial means a no-op; an active trial with the user already marked used only
clears the active record; otherwise mark used (reason `scheduled_job`) and
then clear. -/
def trial_end_op (now : ℚ) (tg_id : Int) (s : Store) : Store :=
  match s.active tg_id with
  | none => s
  | some _ =>
    if (s.used tg_id).isSome then clear_active_trial tg_id s
    else clear_active_trial tg_id
      (mark_trial_used tg_id (UsedInfo.ended now "scheduled_job") s)

/-- Embedding of the voluntary-leave branch of `trial_chat_member_update`
(bot.py lines 2248-2268): it reads the active record, then marks the trial
used with a left-early record unconditionally, then clears the active
record. -/
def trial_leave_op (now : ℚ) (tg_id : Int) (s : Store) : Store :=
  let active := s.active tg_id
  clear_active_trial tg_id
    (mark_trial_used tg_id
      (UsedInfo.leftEarly now (active.map (fun a => a.join_time))
        (active.map (fun a => a.total_hours))) s)

/-- Embedding of the per-user step of `periodic_trial_cleanup`
(bot.py lines 1908-1946): invalid data is cleared; a missing
`trial_end_at` is skipped; an expired trial is marked used (reason
`periodic_cleanup`) and cleared; otherwise a no-op. -/
def periodic_cleanup_user_op (validT : ActiveTrialV → ℚ → Bool) (now : ℚ)
    (tg_id : Int) (s : Store) : Store :=
  match s.active tg_id with
  | none => s
  | some info =>
    if validT info now then
      match info.trial_end_at with
      | none => s
      | some end_at =>
        if end_at ≤ now then
          clear_active_trial tg_id
            (mark_trial_used tg_id (UsedInfo.ended now "periodic_cleanup") s)
        else s
    else clear_active_trial tg_id s

/-- Embedding of the validation gate of `main`'s restore loop
(bot.py lines 2509-2513): a persisted active record that fails
`validate_trial_data` is cleared on restart and its jobs are not
restored (`continue`); a record that passes is left in place for job
restoration. -/
def restore_validate_op (validT : ActiveTrialV → ℚ → Bool) (now : ℚ)
    (tg_id : Int) (s : Store) : Store :=
  match s.active tg_id with
  | none => s
  | some info => if validT info now then s else clear_active_trial tg_id s

/-! ### Reminder freshness check (`bot.py` lines 2293-2329) -/

/-- Embedding of `_send_trial_reminder`: re-reads the persisted active
trial immediately before sending; returns whether the message is sent.
No record, or a record whose `trial_end_at` is at or before `now`, means
no send; a record whose `trial_end_at` is missing or unparseable falls
through to the send (the expiry check is wrapped in try/except). -/
def send_trial_reminder (active : Int → Option ActiveTrialV) (user_id : Int) (now : ℚ) : Bool :=
  match active user_id with
  | none => false
  | some trial =>
    match trial.trial_end_at with
    | none => true
    | some end_at => if end_at ≤ now then false else true

/-! ### Startup job restoration (`bot.py` main, lines 2494-2589) -/

/-- Reminder offsets in minutes (bot.py lines 171-176, defaults). -/
def REMINDER_1_MINUTES : ℚ := 1440

def REMINDER_2_MINUTES : ℚ := 2880

def TRIAL_END_3DAY_MINUTES : ℚ := 4320

def REMINDER_3_MINUTES : ℚ := 4320

def REMINDER_4_MINUTES : ℚ := 5760

def TRIAL_END_5DAY_MINUTES : ℚ := 7200

/-- The delayed one-shot actions of a trial. -/
inductive TrialJob where
  | reminder1
  | reminder2
  | reminder3
  | reminder4
  | trialEndJob
deriving DecidableEq

/-- The per-trial-type offset table built in `main` (bot.py lines 2536-2550). -/
def restoreTable (is5day : Bool) : List (ℚ × TrialJob) :=
  if is5day then
    [(REMINDER_1_MINUTES, TrialJob.reminder1), (REMINDER_3_MINUTES, TrialJob.reminder3),
     (REMINDER_4_MINUTES, TrialJob.reminder4), (TRIAL_END_5DAY_MINUTES, TrialJob.trialEndJob)]
  else
    [(REMINDER_1_MINUTES, TrialJob.reminder1), (REMINDER_2_MINUTES, TrialJob.reminder2),
     (TRIAL_END_3DAY_MINUTES, TrialJob.trialEndJob)]

/-- What restoration does for one validated record. -/
structure RestoreOutcome where
  scheduled : List (TrialJob × ℚ)
  immediateEnd : Bool
deriving DecidableEq

/-- Embedding of the per-record restore logic of `main` (bot.py lines
2515-2581): each table entry is scheduled with delay
`join_time + offset·60 − now` only when that delay is strictly positive
(otherwise it is skipped with a debug log); independently, an immediate
`trial_end` run is queued exactly when the recorded end time
(`trial_end_at`, defaulting to `join_time + total_hours` hours) is at or
before `now`. -/
def restore_trial_jobs (info : ActiveTrialV) (now : ℚ) : RestoreOutcome :=
  { scheduled := (if info.total_hours = TRIAL_HOURS_5_DAY then restoreTable true
        else restoreTable false).filterMap
      (fun p =>
        if 0 < info.join_time + p.1 * 60 - now
        then some (p.2, info.join_time + p.1 * 60 - now) else none)
    immediateEnd :=
      if info.trial_end_at.getD (info.join_time + info.total_hours * 3600) ≤ now
      then true else false }

/-! ### Sliding-window rate limiter (`api.py` lines 139-165, `storage.py`
lines 461-493)

State is the per-key list of recorded attempt timestamps.  The `api.py`
versions persist the pruned list on rejection; the `storage.py` version
saves nothing on rejection; both append the current time on success. -/

/-- One rate-limit check.  `persistPrune` distinguishes the `api.py`
variants (prune persisted on reject) from `storage.py`'s
`check_rate_limit` (state untouched on reject). -/
def rateStep (persistPrune : Bool) (maxRequests : Nat) (windowSeconds : ℚ)
    (now : ℚ) (s : List ℚ) : Bool × List ℚ :=
  if maxRequests ≤ (s.filter (fun ts => now - ts < windowSeconds)).length then
    (false, if persistPrune then s.filter (fun ts => now - ts < windowSeconds) else s)
  else (true, s.filter (fun ts => now - ts < windowSeconds) ++ [now])

/-- Embedding of `storage.check_rate_limit` with its default limits
(5 attempts per 15 minutes). -/
def check_rate_limit (now : ℚ) (s : List ℚ) : Bool × List ℚ :=
  rateStep false 5 900 now s

/-- Embedding of `api.check_ip_rate_limit` (5 requests per 60 minutes). -/
def check_ip_rate_limit (now : ℚ) (s : List ℚ) : Bool × List ℚ :=
  rateStep true 5 3600 now s

/-- Embedding of `api.check_tg_rate_limit` (10 requests per 60 minutes). -/
def check_tg_rate_limit (now : ℚ) (s : List ℚ) : Bool × List ℚ :=
  rateStep true 10 3600 now s

/-- Serialised sequence of checks against one key. -/
def rateRun (step : ℚ → List ℚ → Bool × List ℚ) :
    List ℚ → List ℚ → List Bool × List ℚ
  | [], s => ([], s)
  | t :: ts, s =>
    ((step t s).1 :: (rateRun step ts (step t s).2).1, (rateRun step ts (step t s).2).2)

/-! ### The serialised operation system (for the cross-operation invariant) -/

/-- The operations of the trial lifecycle that touch the used-trials or
active-trials files, each one Python critical-section sequence run by a
single handler. -/
inductive StoreOp where
  | reserve (now : ℚ) (tg : Int)
  | join (tzOffsetHours now : ℚ) (tg : Int)
  | endJob (now : ℚ) (tg : Int)
  | leave (now : ℚ) (tg : Int)
  | sweep (now : ℚ) (tg : Int)

/-- Apply one operation. -/
def applyOp (validT : ActiveTrialV → ℚ → Bool) : StoreOp → Store → Store
  | StoreOp.reserve now tg, s => (atomic_check_and_reserve_trial now tg s).2
  | StoreOp.join tz now tg, s => trial_join_op validT tz now tg s
  | StoreOp.endJob now tg, s => trial_end_op now tg s
  | StoreOp.leave now tg, s => trial_leave_op now tg s
  | StoreOp.sweep now tg, s => periodic_cleanup_user_op validT now tg s

/-- Run a serialised sequence of operations. -/
def runOps (validT : ActiveTrialV → ℚ → Bool) (ops : List StoreOp) (s : Store) : Store :=
  ops.foldl (fun st op => applyOp validT op st) s

/-- The mutual-exclusion invariant: no identity has both a used-trials
record and an active-trials record. -/
def UsedActiveExclusive (s : Store) : Prop :=
  ∀ tg : Int, (s.used tg).isSome → s.active tg = none

/-- Serialised results of repeated reservation attempts for one identity. -/
def reserveResults (tg : Int) : List ℚ → Store → List Bool
  | [], _ => []
  | t :: ts, s =>
    (atomic_check_and_reserve_trial t tg s).1 ::
      reserveResults tg ts (atomic_check_and_reserve_trial t tg s).2

/-! ### Claim C1: atomic check-and-reserve -/

theorem reserve_used_eq (now : ℚ) (tg : Int) (s : Store) (h : (s.used tg).isSome) :
    atomic_check_and_reserve_trial now tg s = (false, s) := by
  unfold atomic_check_and_reserve_trial
  rw [if_pos h]

theorem reserve_active_eq (now : ℚ) (tg : Int) (s : Store)
    (h1 : ¬ (s.used tg).isSome) (h2 : (s.active tg).isSome) :
    atomic_check_and_reserve_trial now tg s = (false, s) := by
  unfold atomic_check_and_reserve_trial
  rw [if_neg h1, if_pos h2]

theorem reserve_free_eq (now : ℚ) (tg : Int) (s : Store)
    (h1 : ¬ (s.used tg).isSome) (h2 : ¬ (s.active tg).isSome) :
    atomic_check_and_reserve_trial now tg s
      = (true, mark_trial_used tg (UsedInfo.reserved now) s) := by
  unfold atomic_check_and_reserve_trial
  rw [if_neg h1, if_neg h2]

/-- Once the used-trials slot is occupied, every later reservation attempt
fails and leaves the slot occupied. -/
theorem reserveResults_used (tg : Int) (ts : List ℚ) :
    ∀ s : Store, (s.used tg).isSome → (reserveResults tg ts s).count true = 0 := by
  induction ts with
  | nil => intro s _; rfl
  | cons t ts ih =>
    intro s h
    rw [reserveResults, reserve_used_eq t tg s h]
    simp only [List.count_cons]
    rw [ih s h]
    simp

theorem reserveResults_at_most_one (tg : Int) (ts : List ℚ) :
    ∀ s : Store, (reserveResults tg ts s).count true ≤ 1 := by
  induction ts with
  | nil => intro s; simp [reserveResults]
  | cons t ts ih =>
    intro s
    by_cases hu : (s.used tg).isSome
    · rw [reserveResults, reserve_used_eq t tg s hu,
        List.count_cons_of_ne (by decide : (true : Bool) ≠ false)]
      exact ih s
    · by_cases ha : (s.active tg).isSome
      · rw [reserveResults, reserve_active_eq t tg s hu ha,
          List.count_cons_of_ne (by decide : (true : Bool) ≠ false)]
        exact ih s
      · rw [reserveResults, reserve_free_eq t tg s hu ha, List.count_cons_self]
        have hafter : ((mark_trial_used tg (UsedInfo.reserved t) s).used tg).isSome := by
          simp [mark_trial_used]
        rw [reserveResults_used tg ts _ hafter]

/-- C1: `atomic_check_and_reserve_trial` returns `True` iff, at the moment
of the call, the identity has no used-trials record and no active-trials
record; when it returns `True` it has written the `reserved` marker into
that identity's used-trials slot, all in one critical section; and over any
serialised sequence of concurrent claim-trial requests for the same
identity (the lock serialises them) at most one returns `True` — hence at
most one request proceeds past the gate towards invite creation. -/
theorem C1_atomic_reservation (now : ℚ) (tg : Int) (s : Store) (ts : List ℚ) :
    ((atomic_check_and_reserve_trial now tg s).1 = true ↔
      s.used tg = none ∧ s.active tg = none)
    ∧ ((atomic_check_and_reserve_trial now tg s).1 = true →
        ((atomic_check_and_reserve_trial now tg s).2).used tg
          = some (UsedInfo.reserved now))
    ∧ (reserveResults tg ts s).count true ≤ 1 := by
  refine ⟨⟨?_, ?_⟩, ?_, reserveResults_at_most_one tg ts s⟩
  · intro h
    by_cases hu : (s.used tg).isSome
    · rw [reserve_used_eq now tg s hu] at h
      simp at h
    · by_cases ha : (s.active tg).isSome
      · rw [reserve_active_eq now tg s hu ha] at h
        simp at h
      · exact ⟨Option.not_isSome_iff_eq_none.mp hu, Option.not_isSome_iff_eq_none.mp ha⟩
  · rintro ⟨hu, ha⟩
    rw [reserve_free_eq now tg s (by simp [hu]) (by simp [ha])]
  · intro h
    by_cases hu : (s.used tg).isSome
    · rw [reserve_used_eq now tg s hu] at h
      simp at h
    · by_cases ha : (s.active tg).isSome
      · rw [reserve_active_eq now tg s hu ha] at h
        simp at h
      · rw [reserve_free_eq now tg s hu ha]
        simp [mark_trial_used]

/-- Witness for C1 on the empty store at identity 7. -/
theorem C1_atomic_reservation_witness :
    (atomic_check_and_reserve_trial 5 7 emptyStore).1 = true
    ∧ ((atomic_check_and_reserve_trial 5 7 emptyStore).2).used 7
        = some (UsedInfo.reserved 5)
    ∧ (reserveResults 7 [1, 2, 3] emptyStore).count true ≤ 1 := by
  have h := C1_atomic_reservation 5 7 emptyStore [1, 2, 3]
  exact ⟨h.1.mpr ⟨rfl, rfl⟩, h.2.1 (h.1.mpr ⟨rfl, rfl⟩), h.2.2⟩

/-! ### Claim C9: used/active mutual exclusion -/

theorem trial_join_op_grants (validT : ActiveTrialV → ℚ → Bool)
    (tz now : ℚ) (tg : Int) (s : Store)
    (hblock : cooldownBlocks now (s.used tg) = false) (hact : s.active tg = none) :
    trial_join_op validT tz now tg s
      = set_active_trial tg (grantTrialRecord tz now) s := by
  unfold trial_join_op
  rw [if_neg (by simp [hblock])]
  rw [hact]

theorem trial_end_op_terminates (now : ℚ) (tg : Int) (s : Store) (a : ActiveTrialV)
    (hact : s.active tg = some a) (hu : s.used tg = none) :
    trial_end_op now tg s
      = clear_active_trial tg
          (mark_trial_used tg (UsedInfo.ended now "scheduled_job") s) := by
  unfold trial_end_op
  rw [hact]
  dsimp only
  rw [if_neg (by simp [hu])]

/-- C9 evaluated at the failing input: starting from the empty store, the
serialised run "join at t = 0, scheduled expiry at t = 259200 (72 h),
re-join at t = 2851200 (30 days after the trial ended)" is an execution of
the system's own operations, yet it ends with identity 7 holding BOTH the
used-trials record written by the expiry AND a freshly granted
active-trials record: once the cooldown has elapsed the join branch falls
through without clearing the used record (bot.py lines 2022-2028, 2107),
and nothing ever deletes a used-trials entry, so the two records coexist
at rest indefinitely — outside any reservation window — falsifying the
claimed invariant. -/
theorem C9_cooldown_rejoin_divergence :
    (runOps (fun _ _ => true)
        [StoreOp.join 0 0 7, StoreOp.endJob 259200 7, StoreOp.join 0 2851200 7]
        emptyStore).used 7 = some (UsedInfo.ended 259200 "scheduled_job")
    ∧ (runOps (fun _ _ => true)
        [StoreOp.join 0 0 7, StoreOp.endJob 259200 7, StoreOp.join 0 2851200 7]
        emptyStore).active 7 = some (grantTrialRecord 0 2851200)
    ∧ ¬ UsedActiveExclusive (runOps (fun _ _ => true)
        [StoreOp.join 0 0 7, StoreOp.endJob 259200 7, StoreOp.join 0 2851200 7]
        emptyStore) := by
  have e1 : applyOp (fun _ _ => true) (StoreOp.join 0 0 7) emptyStore
      = set_active_trial 7 (grantTrialRecord 0 0) emptyStore :=
    trial_join_op_grants (fun _ _ => true) 0 0 7 emptyStore rfl rfl
  have e2 : applyOp (fun _ _ => true) (StoreOp.endJob 259200 7)
        (set_active_trial 7 (grantTrialRecord 0 0) emptyStore)
      = clear_active_trial 7
          (mark_trial_used 7 (UsedInfo.ended 259200 "scheduled_job")
            (set_active_trial 7 (grantTrialRecord 0 0) emptyStore)) :=
    trial_end_op_terminates 259200 7
      (set_active_trial 7 (grantTrialRecord 0 0) emptyStore) (grantTrialRecord 0 0)
      (by simp [set_active_trial]) rfl
  have hused2 : (clear_active_trial 7
        (mark_trial_used 7 (UsedInfo.ended 259200 "scheduled_job")
          (set_active_trial 7 (grantTrialRecord 0 0) emptyStore))).used 7
      = some (UsedInfo.ended 259200 "scheduled_job") := by
    simp [clear_active_trial, mark_trial_used]
  have hblock3 : cooldownBlocks 2851200
      ((clear_active_trial 7
        (mark_trial_used 7 (UsedInfo.ended 259200 "scheduled_job")
          (set_active_trial 7 (grantTrialRecord 0 0) emptyStore))).used 7) = false := by
    rw [hused2]
    unfold cooldownBlocks
    dsimp only [UsedInfo.endTime]
    apply decide_eq_false
    norm_num [TRIAL_COOLDOWN_DAYS]
  have e3 : applyOp (fun _ _ => true) (StoreOp.join 0 2851200 7)
        (clear_active_trial 7
          (mark_trial_used 7 (UsedInfo.ended 259200 "scheduled_job")
            (set_active_trial 7 (grantTrialRecord 0 0) emptyStore)))
      = set_active_trial 7 (grantTrialRecord 0 2851200)
          (clear_active_trial 7
            (mark_trial_used 7 (UsedInfo.ended 259200 "scheduled_job")
              (set_active_trial 7 (grantTrialRecord 0 0) emptyStore))) :=
    trial_join_op_grants (fun _ _ => true) 0 2851200 7
      (clear_active_trial 7
        (mark_trial_used 7 (UsedInfo.ended 259200 "scheduled_job")
          (set_active_trial 7 (grantTrialRecord 0 0) emptyStore))) hblock3
      (by simp [clear_active_trial])
  have hrun : runOps (fun _ _ => true)
      [StoreOp.join 0 0 7, StoreOp.endJob 259200 7, StoreOp.join 0 2851200 7]
      emptyStore
      = set_active_trial 7 (grantTrialRecord 0 2851200)
          (clear_active_trial 7
            (mark_trial_used 7 (UsedInfo.ended 259200 "scheduled_job")
              (set_active_trial 7 (grantTrialRecord 0 0) emptyStore))) := by
    show applyOp (fun _ _ => true) (StoreOp.join 0 2851200 7)
        (applyOp (fun _ _ => true) (StoreOp.endJob 259200 7)
          (applyOp (fun _ _ => true) (StoreOp.join 0 0 7) emptyStore)) = _
    rw [e1, e2, e3]
  refine ⟨?_, ?_, ?_⟩
  · rw [hrun]
    simp only [set_active_trial]
    exact hused2
  · rw [hrun]
    simp [set_active_trial]
  · intro hExcl
    have hs : ((set_active_trial 7 (grantTrialRecord 0 2851200)
        (clear_active_trial 7
          (mark_trial_used 7 (UsedInfo.ended 259200 "scheduled_job")
            (set_active_trial 7 (grantTrialRecord 0 0) emptyStore)))).used 7).isSome
        = true := by
      show ((clear_active_trial 7
        (mark_trial_used 7 (UsedInfo.ended 259200 "scheduled_job")
          (set_active_trial 7 (grantTrialRecord 0 0) emptyStore))).used 7).isSome = true
      rw [hused2]
      rfl
    have h7 := hExcl 7 (by rw [hrun]; exact hs)
    rw [hrun] at h7
    simp [set_active_trial] at h7

/-! ### Claim C5: termination-trigger idempotence -/

/-- A store with identity 7 in an active 3-day trial (join at epoch 0,
ending at 259200 s = 72 h) and no used record. -/
def c5Store : Store :=
  { used := fun _ => none
    active := fun i => if i = 7 then some ⟨0, 72, some 259200⟩ else none }

/-- Counterexample to C5 as stated: after the scheduled expiry job has
terminated identity 7's trial (marking it used and clearing the active
record), a voluntary-leave event — possible when the bot's removal call
failed and the user leaves later — observes no ActiveTrial yet still
overwrites the used-trials record with a fresh left-early marker, so it is
not a no-op on the used-trials state. -/
theorem C5_leave_overwrites_counterexample :
    (trial_end_op 259200 7 c5Store).active 7 = none
    ∧ (trial_end_op 259200 7 c5Store).used 7
        = some (UsedInfo.ended 259200 "scheduled_job")
    ∧ (trial_leave_op 300000 7 (trial_end_op 259200 7 c5Store)).used 7
        = some (UsedInfo.leftEarly 300000 none none)
    ∧ (trial_leave_op 300000 7 (trial_end_op 259200 7 c5Store)).used 7
        ≠ (trial_end_op 259200 7 c5Store).used 7 := by
  refine ⟨by decide, by decide, by decide, by decide⟩

/-- C5 (amended): whichever termination trigger runs first performs the
termination effects (mark UsedTrial, clear ActiveTrial); a scheduled-expiry
or hourly-sweep trigger that runs afterwards, observing no ActiveTrial,
leaves both stores unchanged; a voluntary-leave trigger that runs
afterwards leaves the active-trials store unchanged but still overwrites
the identity's used-trials record with a fresh left-early marker. -/
theorem C5_termination_idempotence_amended (validT : ActiveTrialV → ℚ → Bool)
    (now now2 : ℚ) (tg : Int) (s : Store) :
    ((s.active tg).isSome → s.used tg = none →
      (trial_end_op now tg s).used tg = some (UsedInfo.ended now "scheduled_job")
      ∧ (trial_end_op now tg s).active tg = none)
    ∧ ((s.active tg).isSome →
      (trial_leave_op now tg s).used tg
        = some (UsedInfo.leftEarly now ((s.active tg).map (fun a => a.join_time))
            ((s.active tg).map (fun a => a.total_hours)))
      ∧ (trial_leave_op now tg s).active tg = none)
    ∧ (∀ info e, s.active tg = some info → validT info now = true →
        info.trial_end_at = some e → e ≤ now →
        (periodic_cleanup_user_op validT now tg s).used tg
          = some (UsedInfo.ended now "periodic_cleanup")
        ∧ (periodic_cleanup_user_op validT now tg s).active tg = none)
    ∧ (s.active tg = none → trial_end_op now tg s = s)
    ∧ (s.active tg = none → periodic_cleanup_user_op validT now tg s = s)
    ∧ (s.active tg = none →
        (trial_leave_op now2 tg s).active tg = s.active tg
        ∧ (trial_leave_op now2 tg s).used tg
            = some (UsedInfo.leftEarly now2 none none)) := by
  refine ⟨?_, ?_, ?_, ?_, ?_, ?_⟩
  · intro ha hu
    rcases Option.isSome_iff_exists.mp ha with ⟨a, hact⟩
    unfold trial_end_op
    rw [hact]
    dsimp only
    rw [if_neg (by simp [hu])]
    constructor
    · simp [clear_active_trial, mark_trial_used]
    · simp [clear_active_trial]
  · intro _
    unfold trial_leave_op
    constructor
    · simp [clear_active_trial, mark_trial_used]
    · simp [clear_active_trial]
  · intro info e hact hv hte hle
    unfold periodic_cleanup_user_op
    rw [hact]
    dsimp only
    rw [if_pos hv, hte]
    dsimp only
    rw [if_pos hle]
    constructor
    · simp [clear_active_trial, mark_trial_used]
    · simp [clear_active_trial]
  · intro hact
    unfold trial_end_op
    rw [hact]
  · intro hact
    unfold periodic_cleanup_user_op
    rw [hact]
  · intro hact
    unfold trial_leave_op
    rw [hact]
    constructor
    · simp [clear_active_trial, mark_trial_used, hact]
    · simp [clear_active_trial, mark_trial_used]

/-- Witness for the amended C5 at concrete stores. -/
theorem C5_termination_idempotence_witness :
    ((trial_end_op 259200 7 c5Store).used 7
        = some (UsedInfo.ended 259200 "scheduled_job")
      ∧ (trial_end_op 259200 7 c5Store).active 7 = none)
    ∧ trial_end_op 100 7 emptyStore = emptyStore
    ∧ ((trial_leave_op 5 7 emptyStore).active 7 = emptyStore.active 7
      ∧ (trial_leave_op 5 7 emptyStore).used 7
          = some (UsedInfo.leftEarly 5 none none)) := by
  refine ⟨(C5_termination_idempotence_amended (fun _ _ => true) 259200 0 7 c5Store).1
      (by decide) (by decide),
    (C5_termination_idempotence_amended (fun _ _ => true) 100 0 7 emptyStore).2.2.2.1 rfl,
    (C5_termination_idempotence_amended (fun _ _ => true) 0 5 7 emptyStore).2.2.2.2.2 rfl⟩

/-! ### Claim C7: calendar-determined trial duration -/

/-- C7: for every activation instant, the granted record's duration is a
function of the join time (and the configured timezone offset) alone: the
5-day duration exactly when the shifted instant falls on Saturday (5) or
Sunday (6), the 3-day duration otherwise; `join_time` is the activation
instant and `trial_end_at` is `join_time` plus the duration (hours, here
converted to seconds).  No user-supplied value enters `grantTrialRecord`. -/
theorem C7_weekend_duration_rule (tzOffsetHours now : ℚ) :
    (grantTrialRecord tzOffsetHours now).join_time = now
    ∧ (grantTrialRecord tzOffsetHours now).total_hours
        = (if is_weekend tzOffsetHours now then TRIAL_HOURS_5_DAY else TRIAL_HOURS_3_DAY)
    ∧ (grantTrialRecord tzOffsetHours now).trial_end_at
        = some (now + (grantTrialRecord tzOffsetHours now).total_hours * 3600)
    ∧ (is_weekend tzOffsetHours now = true ↔
        (weekdayOf (now + tzOffsetHours * 3600) = 5
          ∨ weekdayOf (now + tzOffsetHours * 3600) = 6)) := by
  refine ⟨rfl, rfl, rfl, ?_⟩
  unfold is_weekend weekdayOf
  rw [decide_eq_true_eq]
  omega

/-! ### Claim C8: reminder freshness check -/

/-- C8: a reminder never fires for a trial that has ended: if the re-read
of persisted state finds no ActiveTrial, or finds one whose `trial_end_at`
is at or before the current time, `_send_trial_reminder` sends nothing. -/
theorem C8_reminder_freshness (active : Int → Option ActiveTrialV)
    (user_id : Int) (now : ℚ) :
    (active user_id = none → send_trial_reminder active user_id now = false)
    ∧ (∀ d e, active user_id = some d → d.trial_end_at = some e → e ≤ now →
        send_trial_reminder active user_id now = false) := by
  constructor
  · intro h
    unfold send_trial_reminder
    rw [h]
  · intro d e hd he hle
    unfold send_trial_reminder
    rw [hd]
    dsimp only
    rw [he]
    dsimp only
    rw [if_pos hle]

/-- Witness for C8: no record, and an expired record, both send nothing. -/
theorem C8_reminder_freshness_witness :
    send_trial_reminder (fun _ => none) 7 0 = false
    ∧ send_trial_reminder (fun i => if i = 7 then some ⟨0, 72, some 10⟩ else none) 7 10
        = false := by
  refine ⟨(C8_reminder_freshness (fun _ => none) 7 0).1 rfl, ?_⟩
  exact (C8_reminder_freshness (fun i => if i = 7 then some ⟨0, 72, some 10⟩ else none) 7 10).2
    ⟨0, 72, some 10⟩ 10 (by decide) rfl (by norm_num)

/-! ### Claim C3: signature verification on trust-feeding invite reads -/

/-- An invite record with a future expiry and a non-empty link but no
signature at all: no honest write path produces it, and signature
verification rejects it. -/
def unsignedInvite : InviteDict :=
  ⟨some "https://evil", some "c", some "x", none, false⟩

/-- An invites file holding `unsignedInvite` for identity 7. -/
def c3Invites : Int → Option InviteDict :=
  fun i => if i = 7 then some unsignedInvite else none

/-- A concrete parser mapping the stored expiry string to timestamp 100. -/
def c3Parse : String → Option ℚ :=
  fun str => if str = "x" then some 100 else none

/-- C3 evaluated at the failing input: the record's signature does not
verify, and `get_valid_invite_link` accordingly returns nothing — but the
existing-invite branch of `atomic_create_or_get_invite` returns the stored
link anyway, performing no signature verification at all, contradicting
the claim that every trust-feeding read recomputes and compares the
signature and treats a mismatch as absence. -/
theorem C3_unverified_invite_divergence :
    verify_invite_signature id unsignedInvite 7 = false
    ∧ get_valid_invite_link id c3Parse c3Invites 7 0 = none
    ∧ (atomic_create_or_get_invite c3Parse 0 7
        ⟨none, some "c", some "x", none, false⟩ c3Invites).1
      = ⟨InviteAction.existing, some "https://evil"⟩ := by
  refine ⟨rfl, by decide, by decide⟩

/-! ### Claim C10: validate_trial_data acceptance -/

/-- C10: `validate_trial_data` accepts a record exactly when both required
fields are present, the signature verifies, the parsed `total_hours` is one
of the two fixed durations, and the parsed `join_time` is neither in the
future nor more than 30 days in the past; and both discard paths — the
hourly sweep (bot.py 1916-1921) and the restart restore loop
(bot.py 2509-2513) — clear any active record that fails validation, so a
signed but out-of-range record is never trusted. -/
theorem C10_validate_characterization (mac : String → String)
    (parseIso parseFloat : String → Option ℚ) (now : ℚ) (d : TrialDict) (uid : Int)
    (validT : ActiveTrialV → ℚ → Bool) (now2 : ℚ) (tg : Int) (s : Store) :
    (validate_trial_data mac parseIso parseFloat now d uid = true ↔
      ∃ jtStr thStr, d.join_time = some jtStr ∧ d.total_hours = some thStr
        ∧ verify_trial_signature mac d uid = true
        ∧ (∃ th, parseFloat thStr = some th
            ∧ (th = TRIAL_HOURS_3_DAY ∨ th = TRIAL_HOURS_5_DAY))
        ∧ (∃ jt, parseIso jtStr = some jt ∧ jt ≤ now ∧ now - jt ≤ 30 * 86400))
    ∧ (∀ info, s.active tg = some info → validT info now2 = false →
        (periodic_cleanup_user_op validT now2 tg s).active tg = none)
    ∧ (∀ info, s.active tg = some info → validT info now2 = false →
        (restore_validate_op validT now2 tg s).active tg = none) := by
  refine ⟨?_, ?_, ?_⟩
  · constructor
    · intro h
      rcases hjt : d.join_time with _ | jtStr
      · unfold validate_trial_data at h
        rw [hjt] at h
        rcases d.total_hours with _ | thStr <;> simp at h
      · rcases hth : d.total_hours with _ | thStr
        · unfold validate_trial_data at h
          rw [hjt, hth] at h
          simp at h
        · unfold validate_trial_data at h
          rw [hjt, hth] at h
          dsimp only at h
          by_cases hv : verify_trial_signature mac d uid = true
          · rw [if_pos hv] at h
            rcases hpf : parseFloat thStr with _ | th
            · rw [hpf] at h
              simp at h
            · rw [hpf] at h
              dsimp only at h
              by_cases hdur : th ≠ TRIAL_HOURS_3_DAY ∧ th ≠ TRIAL_HOURS_5_DAY
              · rw [if_pos hdur] at h
                simp at h
              · rw [if_neg hdur] at h
                rcases hpi : parseIso jtStr with _ | jt
                · rw [hpi] at h
                  simp at h
                · rw [hpi] at h
                  dsimp only at h
                  by_cases hfut : now < jt
                  · rw [if_pos hfut] at h
                    simp at h
                  · rw [if_neg hfut] at h
                    by_cases hold : 30 < (now - jt) / 86400
                    · rw [if_pos hold] at h
                      simp at h
                    · refine ⟨jtStr, thStr, rfl, rfl, hv, ⟨th, hpf, ?_⟩,
                        ⟨jt, hpi, not_lt.mp hfut, ?_⟩⟩
                      · rcases not_and_or.mp hdur with h' | h'
                        · exact Or.inl (not_not.mp h')
                        · exact Or.inr (not_not.mp h')
                      · have hle := not_lt.mp hold
                        exact (div_le_iff₀ (by norm_num : (0:ℚ) < 86400)).mp hle
          · rw [if_neg hv] at h
            simp at h
    · rintro ⟨jtStr, thStr, hjt, hth, hv, ⟨th, hpf, hdur⟩, ⟨jt, hpi, hfut, hold⟩⟩
      unfold validate_trial_data
      rw [hjt, hth]
      dsimp only
      rw [if_pos hv, hpf]
      dsimp only
      rw [if_neg (show ¬(th ≠ TRIAL_HOURS_3_DAY ∧ th ≠ TRIAL_HOURS_5_DAY) by
        rcases hdur with h' | h'
        · exact fun hc => hc.1 h'
        · exact fun hc => hc.2 h')]
      rw [hpi]
      dsimp only
      rw [if_neg (not_lt.mpr hfut)]
      rw [if_neg (not_lt.mpr ((div_le_iff₀ (by norm_num : (0:ℚ) < 86400)).mpr hold))]
  · intro info hact hv
    unfold periodic_cleanup_user_op
    rw [hact]
    dsimp only
    rw [if_neg (by simp [hv])]
    simp [clear_active_trial]
  · intro info hact hv
    unfold restore_validate_op
    rw [hact]
    dsimp only
    rw [if_neg (by simp [hv])]
    simp [clear_active_trial]

/-- Witness for C10: a correctly signed in-range record validates; the
sweep and the restart restore path both clear a record their validation
rejects. -/
theorem C10_validate_characterization_witness :
    validate_trial_data id
      (fun str => if str = "j" then some 50 else none)
      (fun str => if str = "72" then some 72 else none)
      100 (withTrialSignature id 7 ⟨some "j", some "72", some "e", none⟩) 7 = true
    ∧ (periodic_cleanup_user_op (fun _ _ => false) 0 7 c5Store).active 7 = none
    ∧ (restore_validate_op (fun _ _ => false) 0 7 c5Store).active 7 = none := by
  have h := C10_validate_characterization id
    (fun str => if str = "j" then some 50 else none)
    (fun str => if str = "72" then some 72 else none)
    100 (withTrialSignature id 7 ⟨some "j", some "72", some "e", none⟩) 7
    (fun _ _ => false) 0 7 c5Store
  refine ⟨h.1.mpr ⟨"j", "72", rfl, rfl,
      verify_trial_eq_true id (withTrialSignature id 7 ⟨some "j", some "72", some "e", none⟩) 7
        (sign_trial_data id ⟨some "j", some "72", some "e", none⟩ 7) rfl rfl,
      ⟨72, by decide, Or.inl rfl⟩, ⟨50, by decide, by norm_num, by norm_num⟩⟩,
    h.2.1 ⟨0, 72, some 259200⟩ (by decide) rfl,
    h.2.2 ⟨0, 72, some 259200⟩ (by decide) rfl⟩

/-! ### Claim C4: restart reconstruction -/

/-- Counterexample to C4 as stated, at the specification's own restart
example (`join_time = now − 50h`, `total_hours = 72`, consistent
`trial_end_at`): the 24-hour and 48-hour reminders are past due, yet the
restore logic neither fires them immediately nor schedules them — it
silently skips every past-due reminder; the full outcome is one scheduled
expiry job and no immediate termination, so the only restored action kind
is the expiry. -/
theorem C4_pastdue_reminders_skipped_counterexample :
    restore_trial_jobs ⟨-180000, 72, some 79200⟩ 0
      = ⟨[(TrialJob.trialEndJob, 79200)], false⟩
    ∧ (restore_trial_jobs ⟨-180000, 72, some 79200⟩ 0).scheduled.map Prod.fst
      = [TrialJob.trialEndJob] := by
  have h : restore_trial_jobs ⟨-180000, 72, some 79200⟩ 0
      = ⟨[(TrialJob.trialEndJob, 79200)], false⟩ := by
    unfold restore_trial_jobs
    dsimp only
    rw [if_neg (show ¬((72:ℚ) = TRIAL_HOURS_5_DAY) by norm_num [TRIAL_HOURS_5_DAY])]
    norm_num [restoreTable, REMINDER_1_MINUTES, REMINDER_2_MINUTES, TRIAL_END_3DAY_MINUTES]
    norm_num [List.filterMap_cons, List.filterMap_nil]
  exact ⟨h, by rw [h]; rfl⟩

/-- C4 (amended): on restart, for every record, each action's absolute
fire time is recomputed as `join_time + offset`; an action is scheduled
exactly when its fire time is still strictly in the future, and then with
exactly the remaining delay; past-due actions are skipped rather than
fired — except the expiry, for which termination runs immediately exactly
when the recorded end time is at or before now; for a consistent record
(`trial_end_at = join_time + total_hours`) the expiry is not both run
immediately and scheduled. -/
theorem C4_restore_amended (info : ActiveTrialV) (now : ℚ) :
    (∀ k dl, (k, dl) ∈ (restore_trial_jobs info now).scheduled ↔
      ∃ m, (m, k) ∈ (if info.total_hours = TRIAL_HOURS_5_DAY then restoreTable true
          else restoreTable false)
        ∧ 0 < info.join_time + m * 60 - now
        ∧ dl = info.join_time + m * 60 - now)
    ∧ ((restore_trial_jobs info now).immediateEnd = true ↔
        info.trial_end_at.getD (info.join_time + info.total_hours * 3600) ≤ now)
    ∧ (info.trial_end_at = some (info.join_time + info.total_hours * 3600) →
        (info.total_hours = TRIAL_HOURS_3_DAY ∨ info.total_hours = TRIAL_HOURS_5_DAY) →
        ¬((restore_trial_jobs info now).immediateEnd = true
          ∧ ∃ dl, (TrialJob.trialEndJob, dl) ∈ (restore_trial_jobs info now).scheduled)) := by
  refine ⟨?_, ?_, ?_⟩
  · intro k dl
    constructor
    · intro hmem
      rcases List.mem_filterMap.mp hmem with ⟨⟨m, j⟩, htab, hf⟩
      by_cases hpos : 0 < info.join_time + m * 60 - now
      · rw [if_pos hpos] at hf
        have hpair := Option.some.inj hf
        have hj : j = k := congrArg Prod.fst hpair
        have hx : info.join_time + m * 60 - now = dl := congrArg Prod.snd hpair
        subst hj
        exact ⟨m, htab, hpos, hx.symm⟩
      · rw [if_neg hpos] at hf
        exact Option.noConfusion hf
    · rintro ⟨m, htab, hpos, hdl⟩
      refine List.mem_filterMap.mpr ⟨(m, k), htab, ?_⟩
      rw [if_pos hpos, hdl]
  · constructor
    · intro h1
      have h1' : (if info.trial_end_at.getD (info.join_time + info.total_hours * 3600) ≤ now
          then true else false) = true := h1
      by_contra hc
      rw [if_neg hc] at h1'
      exact Bool.noConfusion h1'
    · intro hc
      show (if info.trial_end_at.getD (info.join_time + info.total_hours * 3600) ≤ now
          then true else false) = true
      rw [if_pos hc]
  · rintro htea hdur ⟨h1, dl, h2⟩
    have hend : info.trial_end_at.getD (info.join_time + info.total_hours * 3600) ≤ now := by
      have h1' : (if info.trial_end_at.getD (info.join_time + info.total_hours * 3600) ≤ now
          then true else false) = true := h1
      by_contra hc
      rw [if_neg hc] at h1'
      exact Bool.noConfusion h1'
    rw [htea, Option.getD_some] at hend
    rcases List.mem_filterMap.mp h2 with ⟨⟨m, j⟩, htab, hf⟩
    by_cases hpos : 0 < info.join_time + m * 60 - now
    · rw [if_pos hpos] at hf
      have hj : j = TrialJob.trialEndJob := congrArg Prod.fst (Option.some.inj hf)
      subst hj
      rcases hdur with h72 | h120
      · rw [if_neg (show ¬(info.total_hours = TRIAL_HOURS_5_DAY) by
          rw [h72]; norm_num [TRIAL_HOURS_3_DAY, TRIAL_HOURS_5_DAY])] at htab
        simp [restoreTable] at htab
        rw [htab] at hpos
        rw [h72] at hend
        norm_num [TRIAL_HOURS_3_DAY] at hend
        norm_num [TRIAL_END_3DAY_MINUTES] at hpos
        linarith
      · rw [if_pos h120] at htab
        simp [restoreTable] at htab
        rw [htab] at hpos
        rw [h120] at hend
        norm_num [TRIAL_HOURS_5_DAY] at hend
        norm_num [TRIAL_END_5DAY_MINUTES] at hpos
        linarith
    · rw [if_neg hpos] at hf
      exact Option.noConfusion hf

/-- Witness for the amended C4: an expired consistent 3-day record gets
immediate termination and no scheduled expiry job. -/
theorem C4_restore_amended_witness :
    ¬((restore_trial_jobs ⟨0, 72, some 259200⟩ 300000).immediateEnd = true
      ∧ ∃ dl, (TrialJob.trialEndJob, dl)
          ∈ (restore_trial_jobs ⟨0, 72, some 259200⟩ 300000).scheduled) :=
  (C4_restore_amended ⟨0, 72, some 259200⟩ 300000).2.2 (by norm_num)
    (Or.inl (by norm_num [TRIAL_HOURS_3_DAY]))

/-! ### Claim C6: sliding-window rate-limit boundary -/

/-- Within one window nothing is pruned: a step from an in-window state on
an in-window time reduces to a pure counter. -/
theorem rateStep_in_window (pp : Bool) (maxR : Nat) (W a t : ℚ) (s : List ℚ)
    (hs : ∀ x ∈ s, a ≤ x ∧ x < a + W) (ht : a ≤ t ∧ t < a + W) :
    rateStep pp maxR W t s = if maxR ≤ s.length then (false, s) else (true, s ++ [t]) := by
  have hkept : s.filter (fun ts => t - ts < W) = s := by
    apply List.filter_eq_self.mpr
    intro x hx
    have hxw := hs x hx
    have hlt : t - x < W := by linarith [ht.2, hxw.1]
    exact decide_eq_true hlt
  unfold rateStep
  rw [hkept]
  by_cases hfull : maxR ≤ s.length
  · rw [if_pos hfull, if_pos hfull]
    cases pp <;> rfl
  · rw [if_neg hfull, if_neg hfull]

/-- Serialised in-window behaviour: from an in-window state, the i-th
result is allowed exactly while the running count is below the ceiling,
and the final state is the old one extended by the accepted times. -/
theorem rateRun_in_window (pp : Bool) (maxR : Nat) (W a : ℚ) :
    ∀ (l s : List ℚ), (∀ x ∈ s, a ≤ x ∧ x < a + W) → (∀ x ∈ l, a ≤ x ∧ x < a + W) →
      (rateRun (rateStep pp maxR W) l s).1
        = (List.range l.length).map (fun i => decide (s.length + i < maxR))
      ∧ (rateRun (rateStep pp maxR W) l s).2 = s ++ l.take (maxR - s.length) := by
  intro l
  induction l with
  | nil =>
    intro s _ _
    exact ⟨rfl, by simp [rateRun]⟩
  | cons t ts ih =>
    intro s hs hl
    have ht := hl t (List.mem_cons_self t ts)
    have hl' : ∀ x ∈ ts, a ≤ x ∧ x < a + W := fun x hx => hl x (List.mem_cons_of_mem t hx)
    have hstep := rateStep_in_window pp maxR W a t s hs ht
    by_cases hfull : maxR ≤ s.length
    · rw [if_pos hfull] at hstep
      have hrec := ih s hs hl'
      constructor
      · show (rateStep pp maxR W t s).1
            :: (rateRun (rateStep pp maxR W) ts (rateStep pp maxR W t s).2).1 = _
        rw [hstep]
        dsimp only
        rw [hrec.1, List.length_cons, List.range_succ_eq_map, List.map_cons, List.map_map]
        rw [show decide (s.length + 0 < maxR) = false from decide_eq_false (by omega)]
        congr 1
        apply List.map_congr_left
        intro i _
        simp only [Function.comp_apply]
        rw [show decide (s.length + i < maxR) = false from decide_eq_false (by omega)]
        exact (decide_eq_false (by omega : ¬ s.length + (i + 1) < maxR)).symm
      · show (rateRun (rateStep pp maxR W) ts (rateStep pp maxR W t s).2).2 = _
        rw [hstep]
        dsimp only
        rw [hrec.2, Nat.sub_eq_zero_of_le hfull]
        rfl
    · rw [if_neg hfull] at hstep
      have hs' : ∀ x ∈ s ++ [t], a ≤ x ∧ x < a + W := by
        intro x hx
        rcases List.mem_append.mp hx with h' | h'
        · exact hs x h'
        · rw [List.mem_singleton.mp h']
          exact ht
      have hrec := ih (s ++ [t]) hs' hl'
      constructor
      · show (rateStep pp maxR W t s).1
            :: (rateRun (rateStep pp maxR W) ts (rateStep pp maxR W t s).2).1 = _
        rw [hstep]
        dsimp only
        rw [hrec.1, List.length_cons, List.range_succ_eq_map, List.map_cons, List.map_map]
        rw [show decide (s.length + 0 < maxR) = true from decide_eq_true (by omega)]
        congr 1
        apply List.map_congr_left
        intro i _
        simp only [Function.comp_apply, List.length_append, List.length_singleton]
        rw [show s.length + 1 + i = s.length + (i + 1) from by omega]
      · show (rateRun (rateStep pp maxR W) ts (rateStep pp maxR W t s).2).2 = _
        rw [hstep]
        dsimp only
        rw [hrec.2]
        rw [show maxR - s.length = (maxR - (s ++ [t]).length) + 1 from by
          simp only [List.length_append, List.length_singleton]; omega]
        rw [List.append_assoc]
        rfl

/-- Once the window has fully elapsed past every recorded timestamp, a new
request is allowed (for a positive ceiling). -/
theorem rateStep_window_elapsed (pp : Bool) (maxR : Nat) (W now : ℚ) (s : List ℚ)
    (h : ∀ ts ∈ s, W ≤ now - ts) (hmax : 0 < maxR) :
    (rateStep pp maxR W now s).1 = true := by
  have hnil : s.filter (fun ts => now - ts < W) = [] := by
    apply List.filter_eq_nil_iff.mpr
    intro x hx
    simpa using not_lt.mpr (h x hx)
  unfold rateStep
  rw [hnil]
  rw [if_neg (by simp only [List.length_nil]; omega)]

/-- C6: for every key, calls inside one window are allowed exactly while
fewer than `max_requests` timestamps are recorded — so from an empty
window the first `max_requests` calls are allowed, each appending its
timestamp (the final state is exactly the first `max_requests` call
times), and every further call in the window (in particular the
`max_requests + 1`-th) is rejected; once the window has fully elapsed
past all recorded timestamps, a new request is allowed again.  Stated for
`storage.check_rate_limit` (5 per 15 min), `api.check_ip_rate_limit`
(5 per 60 min), and `api.check_tg_rate_limit` (10 per 60 min). -/
theorem C6_rate_limit_boundary (a : ℚ) (l : List ℚ) (s : List ℚ) (now : ℚ) :
    ((∀ x ∈ l, a ≤ x ∧ x < a + 900) →
      (rateRun check_rate_limit l []).1
        = (List.range l.length).map (fun i => decide (i < 5))
      ∧ (rateRun check_rate_limit l []).2 = l.take 5)
    ∧ ((∀ x ∈ l, a ≤ x ∧ x < a + 3600) →
      (rateRun check_ip_rate_limit l []).1
        = (List.range l.length).map (fun i => decide (i < 5))
      ∧ (rateRun check_tg_rate_limit l []).1
        = (List.range l.length).map (fun i => decide (i < 10)))
    ∧ ((∀ ts ∈ s, 900 ≤ now - ts) → (check_rate_limit now s).1 = true)
    ∧ ((∀ ts ∈ s, 3600 ≤ now - ts) →
      (check_ip_rate_limit now s).1 = true ∧ (check_tg_rate_limit now s).1 = true) := by
  have hnil : ∀ x ∈ ([] : List ℚ), a ≤ x ∧ x < a + 900 := by intro x hx; cases hx
  have hnil' : ∀ x ∈ ([] : List ℚ), a ≤ x ∧ x < a + 3600 := by intro x hx; cases hx
  refine ⟨?_, ?_, ?_, ?_⟩
  · intro hl
    have h := rateRun_in_window false 5 900 a l [] hnil hl
    constructor
    · show (rateRun (rateStep false 5 900) l []).1 = _
      rw [h.1]
      apply List.map_congr_left
      intro i _
      norm_num
    · show (rateRun (rateStep false 5 900) l []).2 = _
      rw [h.2]
      simp
  · intro hl
    constructor
    · have h := rateRun_in_window true 5 3600 a l [] hnil' hl
      show (rateRun (rateStep true 5 3600) l []).1 = _
      rw [h.1]
      apply List.map_congr_left
      intro i _
      norm_num
    · have h := rateRun_in_window true 10 3600 a l [] hnil' hl
      show (rateRun (rateStep true 10 3600) l []).1 = _
      rw [h.1]
      apply List.map_congr_left
      intro i _
      norm_num
  · intro h
    exact rateStep_window_elapsed false 5 900 now s h (by norm_num)
  · intro h
    exact ⟨rateStep_window_elapsed true 5 3600 now s h (by norm_num),
      rateStep_window_elapsed true 10 3600 now s h (by norm_num)⟩

/-- Witness for C6: six calls at time 0 give five allows then a reject, and
a call one full window later is allowed again. -/
theorem C6_rate_limit_boundary_witness :
    (rateRun check_rate_limit [0, 0, 0, 0, 0, 0] []).1
      = [true, true, true, true, true, false]
    ∧ (check_rate_limit 900 [0]).1 = true := by
  have h := C6_rate_limit_boundary 0 [0, 0, 0, 0, 0, 0] [0] 900
  constructor
  · rw [(h.1 (by intro x hx; simp at hx; rw [hx]; norm_num)).1]
    rfl
  · exact h.2.2.1 (by intro ts hts; simp at hts; rw [hts]; norm_num)
